import Mathlib

/-!
Shallow embedding of the `locat` crate (src/lib.rs): a geo-analytics facade
(`Locat`) composing a maxminddb reader with a SQLite-backed counter store
(`Db`).  The SQLite `analytics` table (iso_code TEXT PRIMARY KEY,
count INTEGER NOT NULL) is modelled as an association list in rowid
(insertion) order; counts are `Nat` (the Rust side reads them as `u64`).
Statement failures of the backend (e.g. a read-only filesystem) are modelled
by a boolean `stmtOk` flag on the backend state.
-/

/-- A row set of the `analytics` table, in rowid (insertion) order. -/
abbrev Table := List (String × Nat)

/-- Value of the `count` column for `code`, if a row for `code` exists
(matching `SELECT count FROM analytics WHERE iso_code = code`). -/
def findCount : Table → String → Option Nat
  | [], _ => none
  | (c, n) :: rest, code => if c = code then some n else findCount rest code

/-- Effect of `INSERT INTO analytics (iso_code, count) VALUES (?, 1)
ON CONFLICT (iso_code) DO UPDATE SET count = count + 1` on the row set:
update the row for `code` in place if present, else append `(code, 1)`. -/
def tableIncrement : Table → String → Table
  | [], code => [(code, 1)]
  | (c, n) :: rest, code =>
      if c = code then (c, n + 1) :: rest else (c, n) :: tableIncrement rest code

/-- Effect of `CREATE TABLE IF NOT EXISTS analytics (...)` on the database
file: a missing file/table becomes the empty table, an existing table is
left exactly as it is. -/
def createTableIfNotExists : Option Table → Table
  | none => []
  | some t => t

/-- Error type of the store backend (`rusqlite::Error`, kept opaque). -/
inductive StoreError
  | backend
deriving DecidableEq, Repr

/-- State of the `Db` handle: the current row set of the `analytics` table,
plus a flag modelling whether SQL statements on this connection currently
succeed (false models e.g. a read-only filesystem). -/
structure Backend where
  table : Table
  stmtOk : Bool
deriving DecidableEq, Repr

/-- Embedding of `Db::open`: opens the database file (whose current table, if
any, is `disk`) and runs the idempotent schema bootstrap.  Fails iff the
backend cannot execute statements. -/
def Db.openDb (disk : Option Table) (stmtOk : Bool) : Except StoreError Backend :=
  if stmtOk then
    Except.ok { table := createTableIfNotExists disk, stmtOk := stmtOk }
  else
    Except.error StoreError.backend

/-- Embedding of `Db::increment`: runs the single-statement upsert on the
dedicated connection; on statement failure the table is unchanged. -/
def Db.increment (b : Backend) (iso_code : String) : Except StoreError Unit × Backend :=
  if b.stmtOk then
    (Except.ok (), { b with table := tableIncrement b.table iso_code })
  else
    (Except.error StoreError.backend, b)

/-- Embedding of `Db::list`: `SELECT iso_code, count FROM analytics`,
returning every row and mutating nothing. -/
def Db.list (b : Backend) : Except StoreError Table × Backend :=
  if b.stmtOk then (Except.ok b.table, b) else (Except.error StoreError.backend, b)

/-- Error type of the maxminddb reader (`maxminddb::MaxMindDBError`, opaque). -/
inductive GeoError
  | maxMindDb
deriving DecidableEq, Repr

/-- The `country` record inside a geoip2 lookup response, with its optional
`iso_code` field. -/
structure CountryRecord where
  iso_code : Option String
deriving DecidableEq, Repr

/-- A `maxminddb::geoip2::Country` lookup response: an optional `country`
record. -/
structure Geoip2Country where
  country : Option CountryRecord
deriving DecidableEq, Repr

/-- The maxminddb reader, abstracted over the address type: `lookup` may fail
(query-time error) or return a response with optional fields. -/
structure Reader (A : Type) where
  lookup : A → Except GeoError Geoip2Country

/-- Embedding of the chain
`reader.lookup::<Country>(addr).ok()?.country?.iso_code?`: a query-time error
or any missing optional field collapses to `none`. -/
def lookupIsoCode {A : Type} (r : Reader A) (addr : A) : Option String :=
  match r.lookup addr with
  | Except.error _ => none
  | Except.ok resp =>
      match resp.country with
      | none => none
      | some rec => rec.iso_code

/-- Embedding of the crate's public `Error` enum. -/
inductive Error
  | maxMindDb (e : GeoError)
  | io
  | rusqlite (e : StoreError)
deriving DecidableEq, Repr

/-- The `Locat` facade: a geo reader plus the analytics `Db` state. -/
structure Locat (A : Type) where
  reader : Reader A
  analytics : Backend

/-- Result of one `Locat::ip_to_iso_code` call: the value returned to the
caller, the analytics backend state afterwards, and the lines written to
stderr by the `eprintln!` failure log. -/
structure IpLookupOut where
  ret : Option String
  analytics : Backend
  log : List String
deriving DecidableEq, Repr

/-- Embedding of `Locat::ip_to_iso_code`: resolve the code; on a miss return
`None` with no store interaction; on a hit run (and await) the increment,
logging—and swallowing—its failure, then return the code. -/
def Locat.ip_to_iso_code {A : Type} (l : Locat A) (addr : A) : IpLookupOut :=
  match lookupIsoCode l.reader addr with
  | none => { ret := none, analytics := l.analytics, log := [] }
  | some iso_code =>
      match Db.increment l.analytics iso_code with
      | (Except.ok _, b) => { ret := some iso_code, analytics := b, log := [] }
      | (Except.error _, b) =>
          { ret := some iso_code, analytics := b
            log := ["Could not increment analytics"] }

/-- Embedding of `Locat::get_analytics`: delegates to `Db::list`, wrapping a
backend failure into `Error::Rusqlite` and propagating it to the caller. -/
def Locat.get_analytics {A : Type} (l : Locat A) : Except Error Table × Backend :=
  match Db.list l.analytics with
  | (Except.ok rows, b) => (Except.ok rows, b)
  | (Except.error e, b) => (Except.error (Error.rusqlite e), b)

/-- Observable events of one `ip_to_iso_code` call, in program order. -/
inductive Ev
  | geoLookup
  | incrementCompleted (ok : Bool)
  | returned (r : Option String)
deriving DecidableEq, Repr

/-- Event trace of `Locat::ip_to_iso_code` in source order: the geo lookup
runs first; on a hit the increment is awaited (it completes, successfully or
not, before the function returns); the return event is always last. -/
def Locat.ip_to_iso_code_trace {A : Type} (l : Locat A) (addr : A) : List Ev :=
  match lookupIsoCode l.reader addr with
  | none => [Ev.geoLookup, Ev.returned none]
  | some iso_code =>
      match Db.increment l.analytics iso_code with
      | (Except.ok _, _) =>
          [Ev.geoLookup, Ev.incrementCompleted true, Ev.returned (some iso_code)]
      | (Except.error _, _) =>
          [Ev.geoLookup, Ev.incrementCompleted false, Ev.returned (some iso_code)]

/-- A unit of work submitted to the dedicated tokio-rusqlite worker. -/
inductive Request
  | incr (code : String)
  | list
deriving DecidableEq, Repr

/-- Effect of one unit of work on the table owned by the worker. -/
def runRequest (t : Table) (r : Request) : Table :=
  match r with
  | Request.incr code => tableIncrement t code
  | Request.list => t

/-- The dedicated single-consumer worker of tokio-rusqlite: it owns the
connection and services submitted units of work strictly in FIFO order. -/
def processFIFO (t : Table) (reqs : List Request) : Table :=
  reqs.foldl runRequest t

/-- The `analytics` table invariant enforced by the PRIMARY KEY constraint:
at most one row per country code. -/
def KeysNodup (t : Table) : Prop :=
  (t.map Prod.fst).Nodup

/-- A concrete geo reader used for witnesses: address 0 resolves to "US",
address 1 is a miss (no `country` record), address 2 fails at query time. -/
def demoReader : Reader Nat :=
  { lookup := fun addr =>
      if addr = 0 then Except.ok { country := some { iso_code := some "US" } }
      else if addr = 1 then Except.ok { country := none }
      else Except.error GeoError.maxMindDb }

/-- A concrete facade over `demoReader` with a fresh, healthy backend. -/
def demoLocat : Locat Nat :=
  { reader := demoReader, analytics := { table := [], stmtOk := true } }

/-- The same facade with a backend whose statements fail (e.g. the database
file sits on a read-only filesystem). -/
def demoLocatDown : Locat Nat :=
  { reader := demoReader, analytics := { table := [], stmtOk := false } }

/-! Helper lemmas about the table operations. -/

theorem findCount_tableIncrement_self (t : Table) (code : String) :
    findCount (tableIncrement t code) code = some ((findCount t code).getD 0 + 1) := by
  induction t with
  | nil => simp [tableIncrement, findCount]
  | cons p rest ih =>
      obtain ⟨c, n⟩ := p
      by_cases hc : c = code
      · simp [tableIncrement, findCount, hc]
      · simp [tableIncrement, findCount, hc, ih]

theorem findCount_tableIncrement_other (t : Table) (code c : String) (hc : c ≠ code) :
    findCount (tableIncrement t code) c = findCount t c := by
  have hcs : ¬ code = c := fun h => hc h.symm
  induction t with
  | nil => simp [tableIncrement, findCount, hcs]
  | cons p rest ih =>
      obtain ⟨c', n⟩ := p
      by_cases hc' : c' = code
      · subst hc'
        simp [tableIncrement, findCount, hcs]
      · simp [tableIncrement, findCount, hc', ih]

theorem tableIncrement_of_absent (t : Table) (code : String)
    (h : findCount t code = none) :
    tableIncrement t code = t ++ [(code, 1)] := by
  induction t with
  | nil => simp [tableIncrement]
  | cons p rest ih =>
      obtain ⟨c, n⟩ := p
      by_cases hc : c = code
      · simp [findCount, hc] at h
      · simp [findCount, hc] at h
        simp [tableIncrement, hc, ih h]

theorem findCount_eq_none_iff (t : Table) (code : String) :
    findCount t code = none ↔ code ∉ t.map Prod.fst := by
  induction t with
  | nil => simp [findCount]
  | cons p rest ih =>
      obtain ⟨c, n⟩ := p
      by_cases hc : c = code
      · subst hc
        simp [findCount]
      · have hcs : ¬ code = c := fun h => hc h.symm
        simp [findCount, hc, hcs, ih]

theorem map_fst_tableIncrement (t : Table) (code : String) :
    (tableIncrement t code).map Prod.fst =
      if findCount t code = none then t.map Prod.fst ++ [code] else t.map Prod.fst := by
  induction t with
  | nil => simp [tableIncrement, findCount]
  | cons p rest ih =>
      obtain ⟨c, n⟩ := p
      by_cases hc : c = code
      · simp [tableIncrement, findCount, hc]
      · by_cases habs : findCount rest code = none
        · simp [tableIncrement, findCount, hc, habs, ih]
        · simp [tableIncrement, findCount, hc, habs, ih]

theorem keysNodup_tableIncrement (t : Table) (code : String) (h : KeysNodup t) :
    KeysNodup (tableIncrement t code) := by
  unfold KeysNodup at *
  rw [map_fst_tableIncrement]
  by_cases habs : findCount t code = none
  · rw [if_pos habs]
    have hmem : code ∉ t.map Prod.fst := (findCount_eq_none_iff t code).mp habs
    simp [List.nodup_append, h, hmem]
  · rw [if_neg habs]
    exact h

theorem findCount_processFIFO_replicate_incr (code : String) (n : Nat) :
    ∀ t : Table,
      findCount (processFIFO t (List.replicate (n + 1) (Request.incr code))) code =
        some ((findCount t code).getD 0 + n + 1) := by
  induction n with
  | zero =>
      intro t
      simp [processFIFO, runRequest, findCount_tableIncrement_self]
  | succ k ih =>
      intro t
      have step : processFIFO t (List.replicate (k + 1 + 1) (Request.incr code)) =
          processFIFO (tableIncrement t code) (List.replicate (k + 1) (Request.incr code)) := by
        simp [processFIFO, List.replicate_succ, runRequest]
      rw [step, ih (tableIncrement t code), findCount_tableIncrement_self]
      simp only [Option.getD_some, Option.some.injEq]
      omega

/-! Claim theorems. -/

/-- C1 (counterexample): the claim "the caller's return never happens after
the persistence of the increment" is false on the code: `ip_to_iso_code`
awaits the increment, so on a resolving address with a healthy backend the
trace places the completed persistence at index 1 and the return at index 2,
with 1 < 2. -/
theorem C1_counterexample :
    (demoLocat.ip_to_iso_code_trace 0)[1]? = some (Ev.incrementCompleted true) ∧
    (demoLocat.ip_to_iso_code_trace 0)[2]? = some (Ev.returned (some "US")) ∧
    (1 : Nat) < 2 := by
  refine ⟨rfl, rfl, by omega⟩

/-- C1 (amended): for every address whose geo lookup yields a code, the call
awaits the dispatched increment — the increment completes (successfully iff
the backend is healthy) strictly before the caller's return — and the code
is still returned to the caller. -/
theorem C1_return_follows_awaited_increment {A : Type} (l : Locat A) (addr : A)
    (code : String) (h : lookupIsoCode l.reader addr = some code) :
    l.ip_to_iso_code_trace addr =
      [Ev.geoLookup, Ev.incrementCompleted l.analytics.stmtOk,
        Ev.returned (some code)] ∧
    (l.ip_to_iso_code addr).ret = some code := by
  unfold Locat.ip_to_iso_code_trace Locat.ip_to_iso_code
  rw [h]
  cases hb : l.analytics.stmtOk <;> simp [Db.increment, hb]

theorem C1_return_follows_awaited_increment_witness :
    lookupIsoCode demoLocat.reader 0 = some "US" ∧
    (demoLocat.ip_to_iso_code_trace 0 =
        [Ev.geoLookup, Ev.incrementCompleted demoLocat.analytics.stmtOk,
          Ev.returned (some "US")] ∧
      (demoLocat.ip_to_iso_code 0).ret = some "US") :=
  ⟨rfl, C1_return_follows_awaited_increment demoLocat 0 "US" rfl⟩

/-- C2: `increment` is the single-statement upsert: absent code inserts
`(code, 1)`, present code bumps exactly that row's count by one and touches
no other row; on a fresh store `increment "US"` then `list` yields exactly
`[("US", 1)]`, and a second `increment "US"` then `list` yields
`[("US", 2)]`. -/
theorem C2_increment_is_upsert (t : Table) (code : String) :
    (findCount t code = none → tableIncrement t code = t ++ [(code, 1)]) ∧
    (∀ n, findCount t code = some n →
        findCount (tableIncrement t code) code = some (n + 1) ∧
        ∀ c, c ≠ code → findCount (tableIncrement t code) c = findCount t c) ∧
    (Db.list { table := tableIncrement [] "US", stmtOk := true }).1 =
      Except.ok [("US", 1)] ∧
    (Db.list { table := tableIncrement (tableIncrement [] "US") "US", stmtOk := true }).1 =
      Except.ok [("US", 2)] := by
  refine ⟨tableIncrement_of_absent t code, ?_, rfl, rfl⟩
  intro n hn
  refine ⟨?_, fun c hc => findCount_tableIncrement_other t code c hc⟩
  rw [findCount_tableIncrement_self, hn]
  rfl

theorem C2_increment_is_upsert_witness :
    findCount [] "US" = none ∧ tableIncrement [] "US" = [] ++ [("US", 1)] :=
  ⟨rfl, (C2_increment_is_upsert [] "US").1 rfl⟩

/-- C3: N increments for the same code submitted to the dedicated FIFO
worker and all run to completion on a fresh store leave a final count of
exactly N for that code, for every N ≥ 1 — no lost updates. -/
theorem C3_fifo_no_lost_updates (n : Nat) (code : String) (h : 1 ≤ n) :
    findCount (processFIFO [] (List.replicate n (Request.incr code))) code =
      some n := by
  obtain ⟨k, rfl⟩ : ∃ k, n = k + 1 := ⟨n - 1, by omega⟩
  rw [findCount_processFIFO_replicate_incr code k []]
  simp [findCount]

theorem C3_fifo_no_lost_updates_witness :
    1 ≤ 300 ∧
      findCount (processFIFO [] (List.replicate 300 (Request.incr "US"))) "US" =
        some 300 :=
  ⟨by omega, C3_fifo_no_lost_updates 300 "US" (by omega)⟩

/-- C4: if `open` succeeded on a path, a second `open` on the same path (the
file now holding the table the first call left behind) never errors and
leaves every existing row unchanged: the `CREATE TABLE IF NOT EXISTS`
bootstrap is idempotent and never resets counts. -/
theorem C4_open_idempotent (disk : Option Table) (ok : Bool) (b : Backend)
    (h : Db.openDb disk ok = Except.ok b) :
    Db.openDb (some b.table) ok = Except.ok { table := b.table, stmtOk := ok } := by
  cases ok with
  | false => simp [Db.openDb] at h
  | true =>
      have h' : ({ table := createTableIfNotExists disk, stmtOk := true } : Backend) = b :=
        Except.ok.inj h
      rw [← h']
      rfl

theorem C4_open_idempotent_witness :
    Db.openDb (some [("US", 5)]) true =
      Except.ok { table := [("US", 5)], stmtOk := true } :=
  C4_open_idempotent (some [("US", 5)]) true
    { table := [("US", 5)], stmtOk := true } rfl

/-- C5: when the geo lookup yields a code but the backend statement fails,
`ip_to_iso_code` still returns `Some code`, propagates no error, and only
writes the failure to stderr; `get_analytics`, by contrast, propagates the
`list` failure to its caller. -/
theorem C5_increment_failure_swallowed {A : Type} (l : Locat A) (addr : A)
    (code : String) (hgeo : lookupIsoCode l.reader addr = some code)
    (hfail : l.analytics.stmtOk = false) :
    (l.ip_to_iso_code addr).ret = some code ∧
    (l.ip_to_iso_code addr).log = ["Could not increment analytics"] ∧
    l.get_analytics.1 = Except.error (Error.rusqlite StoreError.backend) := by
  unfold Locat.ip_to_iso_code Locat.get_analytics
  rw [hgeo]
  simp [Db.increment, Db.list, hfail]

theorem C5_increment_failure_swallowed_witness :
    lookupIsoCode demoLocatDown.reader 0 = some "US" ∧
    demoLocatDown.analytics.stmtOk = false ∧
    ((demoLocatDown.ip_to_iso_code 0).ret = some "US" ∧
      (demoLocatDown.ip_to_iso_code 0).log = ["Could not increment analytics"] ∧
      demoLocatDown.get_analytics.1 =
        Except.error (Error.rusqlite StoreError.backend)) :=
  ⟨rfl, rfl, C5_increment_failure_swallowed demoLocatDown 0 "US" rfl rfl⟩

/-- C6: on a geo miss `ip_to_iso_code` returns `none`, raises no error,
writes no log line, leaves the analytics backend exactly as it found it, and
its trace contains no increment event at all. -/
theorem C6_no_side_effect_on_miss {A : Type} (l : Locat A) (addr : A)
    (h : lookupIsoCode l.reader addr = none) :
    l.ip_to_iso_code addr = { ret := none, analytics := l.analytics, log := [] } ∧
    l.ip_to_iso_code_trace addr = [Ev.geoLookup, Ev.returned none] := by
  unfold Locat.ip_to_iso_code Locat.ip_to_iso_code_trace
  rw [h]
  exact ⟨rfl, rfl⟩

theorem C6_no_side_effect_on_miss_witness :
    lookupIsoCode demoLocat.reader 1 = none ∧
    (demoLocat.ip_to_iso_code 1 =
        { ret := none, analytics := demoLocat.analytics, log := [] } ∧
      demoLocat.ip_to_iso_code_trace 1 = [Ev.geoLookup, Ev.returned none]) :=
  ⟨rfl, C6_no_side_effect_on_miss demoLocat 1 rfl⟩

/-- C7: on a fresh store, `increment "US"`, `increment "US"`,
`increment "FR"` then `list` yields rows whose set is exactly
`{("US", 2), ("FR", 1)}`; there is no row for "DE" and every row's code is
one of the two codes that were incremented. -/
theorem C7_key_independence :
    (Db.list { table := tableIncrement (tableIncrement (tableIncrement [] "US") "US") "FR", stmtOk := true }).1 =
      Except.ok [("US", 2), ("FR", 1)] ∧
    findCount (tableIncrement (tableIncrement (tableIncrement [] "US") "US") "FR") "DE" =
      none ∧
    (tableIncrement (tableIncrement (tableIncrement [] "US") "US") "FR").all
      (fun p => p.1 == "US" || p.1 == "FR") = true :=
  ⟨rfl, rfl, rfl⟩

/-- C8: the operations preserve the table invariants: `increment` keeps keys
unique (at most one row per code) and never decreases any existing count,
the bootstrap of `open` on an existing table is the identity, `list` leaves
the state untouched, and every stored count is a non-negative integer (counts
are `Nat` in this model, mirroring the `u64` read on the Rust side). -/
theorem C8_operations_preserve_invariants (t : Table) (code : String)
    (h : KeysNodup t) :
    KeysNodup (tableIncrement t code) ∧
    (∀ c n, findCount t c = some n →
        ∃ m, findCount (tableIncrement t code) c = some m ∧ n ≤ m) ∧
    createTableIfNotExists (some t) = t ∧
    (Db.list { table := t, stmtOk := true }).2 = { table := t, stmtOk := true } ∧
    ∀ p ∈ tableIncrement t code, 0 ≤ p.2 := by
  refine ⟨keysNodup_tableIncrement t code h, ?_, rfl, rfl, fun p _ => Nat.zero_le _⟩
  intro c n hc
  by_cases hcc : c = code
  · subst hcc
    refine ⟨(findCount t c).getD 0 + 1, findCount_tableIncrement_self t c, ?_⟩
    rw [hc]
    simp
  · exact ⟨n, by rw [findCount_tableIncrement_other t code c hcc, hc], Nat.le_refl n⟩

theorem C8_operations_preserve_invariants_witness :
    KeysNodup [("US", 1)] ∧ KeysNodup (tableIncrement [("US", 1)] "FR") :=
  ⟨by simp [KeysNodup],
    (C8_operations_preserve_invariants [("US", 1)] "FR" (by simp [KeysNodup])).1⟩

/-- C9: `list` (and hence `get_analytics`) mutates nothing: the backend state
after a `list` is exactly the state before it, so a second `list` with no
intervening increment returns the same rows. -/
theorem C9_list_performs_no_mutation {A : Type} (b : Backend) (l : Locat A) :
    (Db.list b).2 = b ∧
    (Db.list b).1 = (Db.list (Db.list b).2).1 ∧
    l.get_analytics.2 = l.analytics := by
  refine ⟨?_, ?_, ?_⟩
  · cases hb : b.stmtOk <;> simp [Db.list, hb]
  · cases hb : b.stmtOk <;> simp [Db.list, hb]
  · cases hl : l.analytics.stmtOk <;> simp [Locat.get_analytics, Db.list, hl]

/-- C10: a query-time failure of the geo lookup collapses to `none` through
the `.ok()?` chain: `ip_to_iso_code` returns `none`, surfaces no error,
dispatches no increment, and leaves the backend untouched — indistinguishable
from a plain miss at the public interface. -/
theorem C10_geo_error_behaves_as_miss {A : Type} (l : Locat A) (addr : A)
    (e : GeoError) (h : l.reader.lookup addr = Except.error e) :
    lookupIsoCode l.reader addr = none ∧
    l.ip_to_iso_code addr = { ret := none, analytics := l.analytics, log := [] } ∧
    l.ip_to_iso_code_trace addr = [Ev.geoLookup, Ev.returned none] := by
  have hnone : lookupIsoCode l.reader addr = none := by
    unfold lookupIsoCode
    rw [h]
  refine ⟨hnone, ?_, ?_⟩
  · unfold Locat.ip_to_iso_code
    rw [hnone]
  · unfold Locat.ip_to_iso_code_trace
    rw [hnone]

theorem C10_geo_error_behaves_as_miss_witness :
    demoLocat.reader.lookup 2 = Except.error GeoError.maxMindDb ∧
    (lookupIsoCode demoLocat.reader 2 = none ∧
      demoLocat.ip_to_iso_code 2 =
        { ret := none, analytics := demoLocat.analytics, log := [] } ∧
      demoLocat.ip_to_iso_code_trace 2 = [Ev.geoLookup, Ev.returned none]) :=
  ⟨rfl, C10_geo_error_behaves_as_miss demoLocat 2 GeoError.maxMindDb rfl⟩
